import Mathlib

/-!
Verification of the Health_Gaurd credential cipher and Redis cache layer.

The development shallowly embeds the two specified subsystems:

* `backend/utils/passwordEncryption.js` (shipped as part of
  `backend/promote-admin.js` in this snapshot): the `PasswordEncryption`
  class with `deriveKey`, `hashPassword`, `comparePassword` and
  `validatePasswordStrength`.
* the Redis client (`RedisClient` in `src/unnamed/part_000`) with its
  fail-open guards, session / health-data / caloric-result wrappers, and
  the cache middleware (`backend/middleware/cache.js`) with
  `invalidateCache`.

Modelling conventions, stated once here and repeated at the definitions
they concern:

* JavaScript strings that are only ever treated as byte carriers
  (passwords, ciphertexts) are modelled as their UTF-8 byte lists
  (`List Nat`, each element < 256); the intermediate hex encodings in
  `hashPassword` and `comparePassword` compose to the identity on bytes
  and are elided.
* The external crypto primitives (PBKDF2-SHA512, the AES-256 block
  function) are not repository code; they are modelled as concrete,
  executable keyed transformations that keep the properties the claims
  depend on: determinism, fixed output length, invertibility of the
  cipher, PKCS#7 padding and its failure mode, and key/IV length
  validation by `createCipheriv` / `createDecipheriv`.
* JSON serialisation through the Redis wire (`JSON.stringify` /
  `JSON.parse`) is modelled as the identity on JSON documents (`JVal`).
* JavaScript numbers are modelled as `ℚ`; `Math.floor` is `Rat.floor`
  (proved equal to the mathematical floor `⌊⌋` below).
-/

namespace HealthGuard

/-! ## Base64 (model of Buffer.toString base64 / Buffer.from base64) -/

/-- The 64-character base64 alphabet, in index order. -/
def b64Alphabet : List Char :=
  ['A', 'B', 'C', 'D', 'E', 'F', 'G', 'H', 'I', 'J', 'K', 'L', 'M',
   'N', 'O', 'P', 'Q', 'R', 'S', 'T', 'U', 'V', 'W', 'X', 'Y', 'Z',
   'a', 'b', 'c', 'd', 'e', 'f', 'g', 'h', 'i', 'j', 'k', 'l', 'm',
   'n', 'o', 'p', 'q', 'r', 's', 't', 'u', 'v', 'w', 'x', 'y', 'z',
   '0', '1', '2', '3', '4', '5', '6', '7', '8', '9', '+', '/']

/-- Character for a 6-bit value. -/
def b64Chr (v : Nat) : Char := b64Alphabet.getD v 'A'

def b64ValAux (c : Char) : List Char → Nat → Option Nat
  | [], _ => none
  | a :: rest, i => if a == c then some i else b64ValAux c rest (i + 1)

/-- 6-bit value of an alphabet character, `none` for characters outside
the alphabet (including the padding character). -/
def b64Val (c : Char) : Option Nat := b64ValAux c b64Alphabet 0

/-- Base64-encode a byte list, three bytes to four characters, with
trailing `=` padding, as `Buffer.prototype.toString` with encoding
base64 produces. -/
def b64EncodeList : List Nat → List Char
  | [] => []
  | [b1] => [b64Chr (b1 / 4), b64Chr (b1 % 4 * 16), '=', '=']
  | [b1, b2] => [b64Chr (b1 / 4), b64Chr (b1 % 4 * 16 + b2 / 16), b64Chr (b2 % 16 * 4), '=']
  | b1 :: b2 :: b3 :: rest =>
    b64Chr (b1 / 4) :: b64Chr (b1 % 4 * 16 + b2 / 16) ::
    b64Chr (b2 % 16 * 4 + b3 / 64) :: b64Chr (b3 % 64) :: b64EncodeList rest

def toBase64 (l : List Nat) : String := String.mk (b64EncodeList l)

/-- Reassemble bytes from a list of 6-bit values, four values to three
bytes; a leftover group of two or three values contributes one or two
bytes and a lone leftover value is dropped, matching the lenient Node
decoder. -/
def b64DecodeGroups : List Nat → List Nat
  | a :: b :: c :: d :: rest =>
    (a * 4 + b / 16) :: (b % 16 * 16 + c / 4) :: (c % 4 * 64 + d) :: b64DecodeGroups rest
  | [a, b, c] => [a * 4 + b / 16, b % 16 * 16 + c / 4]
  | [a, b] => [a * 4 + b / 16]
  | [_] => []
  | [] => []

/-- Model of `Buffer.from(s, base64)`: Node never throws here; it skips
characters outside the alphabet (and padding) and decodes the rest. -/
def fromBase64 (s : String) : List Nat := b64DecodeGroups (s.data.filterMap b64Val)

/-! ## PasswordEncryption: fixed parameters (constructor, promote-admin.js lines 41-48) -/

def saltLength : Nat := 32

def ivLength : Nat := 16

def keyLength : Nat := 32

def iterations : Nat := 100000

/-- Model of `crypto.pbkdf2Sync(password, salt, iterations, keyLen, sha512)`.
Node accepts a salt of any length (it validates only the argument types,
never the salt length), and deterministically returns `keyLen` bytes.
The SHA-512 PRF iteration is abstracted to a concrete mixing fold; the
iteration count and index enter the seed so the model stays deterministic
in all four arguments, as the primitive is. -/
def pbkdf2Sync (password salt : List Nat) (iters keyLen : Nat) : List Nat :=
  (List.range keyLen).map (fun i =>
    (password.foldl (fun a b => a * 257 + b)
      (salt.foldl (fun a b => a * 263 + b) (iters + i * 131))) % 256)

/-- `deriveKey` (promote-admin.js lines 64-66): exactly
`pbkdf2Sync(password, salt, this.iterations, this.keyLength, this.hashAlgorithm)`.
There is no salt-length validation anywhere in this function. -/
def deriveKey (password salt : List Nat) : List Nat :=
  pbkdf2Sync password salt iterations keyLength

/-- PKCS#7 padding to the AES block size of 16 bytes, as `cipher.final`
applies it. -/
def pkcs7Pad (m : List Nat) : List Nat :=
  m ++ List.replicate (16 - m.length % 16) (16 - m.length % 16)

/-- PKCS#7 unpadding, as `decipher.final` checks it: the last byte must
be a valid pad length and the whole tail must repeat it, else the
decryption fails. -/
def pkcs7Unpad (m : List Nat) : Option (List Nat) :=
  match m.getLast? with
  | none => none
  | some p =>
    if 1 ≤ p ∧ p ≤ 16 ∧ p ≤ m.length ∧ (m.drop (m.length - p)).all (fun b => b == p) then
      some (m.take (m.length - p))
    else none

/-- One byte of the modelled cipher stream. -/
def encByte (m k : Nat) : Nat := (m + k) % 256

/-- Inverse of `encByte` on bytes. -/
def decByte (c k : Nat) : Nat := (c + 256 - k % 256) % 256

/-- Keystream of `n` bytes derived from key and IV: the stand-in for the
AES-256 block permutation chained in CBC mode.  Only the properties the
claims use are kept: the stream is a deterministic function of
(key, iv), and the byte transformation is invertible. -/
def keystream (key iv : List Nat) (n : Nat) : List Nat :=
  (List.range n).map (fun i =>
    (key.foldl (fun a b => a * 269 + b) (iv.foldl (fun a b => a * 271 + b) i)) % 256)

/-- Model of `createCipheriv(aes-256-cbc, key, iv)` followed by
`update`/`final`: the constructor throws when the key is not 32 bytes or
the IV is not 16 bytes; otherwise the padded plaintext is transformed
byte by byte. -/
def aesCbcEncrypt (key iv msg : List Nat) : Except String (List Nat) :=
  if key.length ≠ 32 then .error "Invalid key length"
  else if iv.length ≠ 16 then .error "Invalid initialization vector"
  else
    .ok (List.zipWith encByte (pkcs7Pad msg) (keystream key iv (pkcs7Pad msg).length))

/-- Model of `createDecipheriv` followed by `update`/`final`: length
validation as in encryption, then the block-alignment check and the
PKCS#7 padding check of `decipher.final`, each of which throws. -/
def aesCbcDecrypt (key iv ct : List Nat) : Except String (List Nat) :=
  if key.length ≠ 32 then .error "Invalid key length"
  else if iv.length ≠ 16 then .error "Invalid initialization vector"
  else if ct.length % 16 ≠ 0 then .error "wrong final block length"
  else
    match pkcs7Unpad (List.zipWith decByte ct (keystream key iv ct.length)) with
    | some m => .ok m
    | none => .error "bad decrypt"

/-- `hashPassword` (promote-admin.js lines 73-103), with the random
`salt` and `iv` passed in as parameters: derive the key, encrypt the
password itself, concatenate salt ++ iv ++ ciphertext and base64-encode.
The surrounding try/catch rethrows any failure as the single message
used by the source. -/
def hashPassword (password salt iv : List Nat) : Except String String :=
  match aesCbcEncrypt (deriveKey password salt) iv password with
  | .ok encrypted => .ok (toBase64 (salt ++ iv ++ encrypted))
  | .error _ => .error "Password encryption failed"

/-- The body of `comparePassword` (promote-admin.js lines 111-139)
before the catch: decode, slice salt / iv / ciphertext at 32 and 48,
re-derive the key, decrypt, compare. -/
def comparePasswordExc (candidate : List Nat) (hashedPassword : String) : Except String Bool :=
  let combined := fromBase64 hashedPassword
  let salt := combined.take saltLength
  let iv := (combined.drop saltLength).take ivLength
  let encrypted := combined.drop (saltLength + ivLength)
  match aesCbcDecrypt (deriveKey candidate salt) iv encrypted with
  | .ok decrypted => .ok (decide (decrypted = candidate))
  | .error e => .error e

/-- `comparePassword` (promote-admin.js lines 111-144): the catch folds
every decode or decryption failure into the boolean `false`. -/
def comparePassword (candidate : List Nat) (hashedPassword : String) : Bool :=
  match comparePasswordExc candidate hashedPassword with
  | .ok b => b
  | .error _ => false

/-! ## JavaScript string helpers -/

/-- Does `sub` match at the head of `hay`? -/
def leadMatch : List Char → List Char → Bool
  | [], _ => true
  | _ :: _, [] => false
  | a :: as, b :: bs => a == b && leadMatch as bs

/-- Substring test on character lists (`String.prototype.includes`). -/
def hasSub : List Char → List Char → Bool
  | [], sub => sub.isEmpty
  | c :: t, sub => leadMatch sub (c :: t) || hasSub t sub

/-- `s.includes(sub)`. -/
def jsIncludes (s sub : String) : Bool := hasSub s.data sub.data

/-- Replace the first occurrence of `sub` in `hay` by `repl`; with an
empty `sub` the replacement is inserted at the front, as in JavaScript. -/
def replFirst : List Char → List Char → List Char → List Char
  | [], sub, repl => if sub.isEmpty then repl else []
  | c :: t, sub, repl =>
    if leadMatch sub (c :: t) then repl ++ (c :: t).drop sub.length
    else c :: replFirst t sub repl

/-- `s.replace(pat, repl)` with a string pattern: JavaScript replaces
only the first occurrence. -/
def jsReplaceFirst (s pat repl : String) : String :=
  String.mk (replFirst s.data pat.data repl.data)

/-- `s.toLowerCase()`, on the ASCII range the sources use. -/
def jsToLower (s : String) : String := String.mk (s.data.map Char.toLower)

/-! ## validatePasswordStrength (promote-admin.js lines 181-265) -/

/-- The symbol class of the regex
`[!@#$%^&*()_+\-=\[\]{}|;:,.<>?]` used for the hasSymbols criterion. -/
def symbolChars : List Char :=
  ['!', '@', '#', '$', '%', '^', '&', '*', '(', ')', '_', '+', '-', '=',
   '[', ']', '{', '}', '|', ';', ':', ',', '.', '<', '>', '?']

/-- The deny-list of common patterns, each tested as a substring of the
lowercased password. -/
def commonPatterns : List String :=
  ["123456", "password", "qwerty", "abc123", "111111", "000000", "admin", "login"]

/-- Does the lowercased password contain a deny-listed substring? -/
def hasCommonPattern (password : String) : Bool :=
  commonPatterns.any (fun p => jsIncludes (jsToLower password) p)

/-- The result object of `validatePasswordStrength`, with the `criteria`
sub-object flattened into the five boolean fields plus
`noCommonPatterns`. -/
structure StrengthResult where
  isValid : Bool
  strength : String
  score : Nat
  suggestions : List String
  minLength : Bool
  hasUppercase : Bool
  hasLowercase : Bool
  hasNumbers : Bool
  hasSymbols : Bool
  noCommonPatterns : Bool
deriving DecidableEq

/-- `validatePasswordStrength` (promote-admin.js lines 181-265).  The
sequential `score += 1` / `suggestions.push` mutations become a sum of
indicators and a concatenation in source order; the deny-list step is
`score = Math.max(0, score - 1)`, which on naturals coincides with
truncated subtraction. -/
def validatePasswordStrength (password : String) : StrengthResult :=
  let minLength := decide (8 ≤ password.length)
  let hasUppercase := password.data.any (fun c => 'A' ≤ c && c ≤ 'Z')
  let hasLowercase := password.data.any (fun c => 'a' ≤ c && c ≤ 'z')
  let hasNumbers := password.data.any (fun c => '0' ≤ c && c ≤ '9')
  let hasSymbols := password.data.any (fun c => symbolChars.contains c)
  let criteriaScore :=
    (if minLength then 1 else 0) + (if hasUppercase then 1 else 0) +
    (if hasLowercase then 1 else 0) + (if hasNumbers then 1 else 0) +
    (if hasSymbols then 1 else 0)
  let common := hasCommonPattern password
  let score := if common then Nat.max 0 (criteriaScore - 1) else criteriaScore
  let suggestions :=
    (if minLength then [] else ["Use at least 8 characters"]) ++
    (if hasUppercase then [] else ["Include uppercase letters"]) ++
    (if hasLowercase then [] else ["Include lowercase letters"]) ++
    (if hasNumbers then [] else ["Include numbers"]) ++
    (if hasSymbols then [] else ["Include special characters"]) ++
    (if common then ["Avoid common patterns"] else [])
  { isValid := decide (3 ≤ score)
    strength := if 4 ≤ score then "strong" else if 3 ≤ score then "medium" else "weak"
    score := score
    suggestions := suggestions
    minLength := minLength
    hasUppercase := hasUppercase
    hasLowercase := hasLowercase
    hasNumbers := hasNumbers
    hasSymbols := hasSymbols
    noCommonPatterns := !common }

/-! ## JSON documents

`JSON.stringify` on write and `JSON.parse` on read compose to the
identity on these documents, so the Redis store below holds `JVal`
values directly. -/

inductive JVal where
  | jnull
  | jbool (b : Bool)
  | jnum (q : ℚ)
  | jstr (s : String)
  | jarr (xs : List JVal)
  | jobj (fields : List (String × JVal))

/-- JavaScript property read `o.k` on an object literal (our objects
never carry duplicate keys). -/
def objGet (fields : List (String × JVal)) (k : String) : Option JVal :=
  (fields.find? (fun f => f.1 == k)).map (fun f => f.2)

/-- Object-spread assignment `{...o, k: v}`: overwrite in place when the
key exists, append otherwise. -/
def objSet (fields : List (String × JVal)) (k : String) (v : JVal) : List (String × JVal) :=
  if (fields.map (fun f => f.1)).contains k then
    fields.map (fun f => if f.1 == k then (f.1, v) else f)
  else fields ++ [(k, v)]

/-- Stand-in for `new Date(ms).toISOString()`: the claims never inspect
the text, only its presence, so the rendering is the decimal clock
value. -/
def isoString (t : Nat) : String := toString t

/-! ## BMI bucketing -/

/-- `Math.floor(bmi / 2.5)` computed on rationals:
`bmi / (5/2) = (2 * num) / (5 * den)`, taken through `Rat.divInt` and
`Rat.floor` so that the kernel can evaluate it.  `bmiBucketIdx_eq_floor`
below proves this equal to the mathematical `⌊bmi / (5/2)⌋`. -/
def bmiBucketIdx (bmi : ℚ) : ℤ := Rat.floor (Rat.divInt (bmi.num * 2) (bmi.den * 5))

/-- Decimal rendering of the bucket value `idx * 2.5`, as the template
literal renders the JavaScript number `bmiRange`: an integer when `idx`
is even, otherwise one decimal digit `5`. -/
def bucketStr (idx : ℤ) : String :=
  if idx % 2 = 0 then toString (idx * 5 / 2)
  else (if idx < 0 then "-" else "") ++ toString ((idx * 5).natAbs / 2) ++ ".5"

/-! ## The diseaseTypes argument -/

/-- The JavaScript value passed for `diseaseTypes`: an array of
condition names, a nullish (falsy, non-array) value, or a plain string.
Other primitive values behave like one of these three for the key
computation and are not distinguished. -/
inductive DiseaseArg where
  | arr (conditions : List String)
  | nullv
  | strv (s : String)

/-- Insertion step of the default `Array.prototype.sort` (string
comparison). -/
def insertStr (s : String) : List String → List String
  | [] => [s]
  | t :: ts => if s ≤ t then s :: t :: ts else t :: insertStr s ts

/-- `conditions.sort()` under the default lexicographic comparator. -/
def sortStr : List String → List String
  | [] => []
  | s :: ss => insertStr s (sortStr ss)

/-- `arr.join(",")`. -/
def joinComma : List String → String
  | [] => ""
  | [s] => s
  | s :: rest => s ++ "," ++ joinComma rest

/-- The disease segment of the cache key:
`Array.isArray(d) ? d.sort().join(",") : d || "none"`. -/
def diseaseSegment : DiseaseArg → String
  | .arr l => joinComma (sortStr l)
  | .nullv => "none"
  | .strv s => if s = "" then "none" else s

/-- The cache key computed inside `setCaloricResult`
(part_000 lines 319-325). -/
def setCalorieKey (bmi : ℚ) (dt : DiseaseArg) : String :=
  "calorie:" ++ bucketStr (bmiBucketIdx bmi) ++ ":" ++ diseaseSegment dt

/-- The cache key computed inside `getCaloricResult`
(part_000 lines 355-360), transcribed separately because the source
duplicates the expression. -/
def getCalorieKey (bmi : ℚ) (dt : DiseaseArg) : String :=
  "calorie:" ++ bucketStr (bmiBucketIdx bmi) ++ ":" ++ diseaseSegment dt

/-- The `diseases` field stored in `resultData`: by the time the object
literal is built, `diseaseTypes.sort()` has already sorted the array in
place. -/
def diseasesField : DiseaseArg → JVal
  | .arr l => .jarr ((sortStr l).map .jstr)
  | .nullv => .jnull
  | .strv s => .jstr s

/-! ## RedisClient (src/unnamed/part_000) -/

/-- The client state: the `isConnected` flag, whether `this.client` is
non-null, the keyspace (value with absolute expiry time), and the
current clock in seconds. -/
structure RedisState where
  connected : Bool
  hasClient : Bool
  store : String → Option (JVal × Nat)
  now : Nat

/-- Raw Redis GET with expiry semantics. -/
def redisGet (st : RedisState) (key : String) : Option JVal :=
  match st.store key with
  | some (v, expiry) => if st.now < expiry then some v else none
  | none => none

/-- Raw Redis SETEX. -/
def redisSetEx (st : RedisState) (key : String) (ttl : Nat) (v : JVal) : RedisState :=
  RedisState.mk st.connected st.hasClient
    (fun k => if k = key then some (v, st.now + ttl) else st.store k) st.now

/-- Raw Redis DEL. -/
def redisDel (st : RedisState) (key : String) : RedisState :=
  RedisState.mk st.connected st.hasClient
    (fun k => if k = key then none else st.store k) st.now

namespace RedisClient

/-- `RedisClient.get` (part_000 lines 131-140). -/
def get (st : RedisState) (key : String) : Option JVal :=
  if !st.connected || !st.hasClient then none else redisGet st key

/-- `RedisClient.set` (part_000 lines 143-152); the default TTL in the
source is 3600 and is passed explicitly here. -/
def set (st : RedisState) (key : String) (data : JVal) (expireInSeconds : Nat) :
    Bool × RedisState :=
  if !st.connected || !st.hasClient then (false, st)
  else (true, redisSetEx st key expireInSeconds data)

/-- `RedisClient.del` (part_000 lines 155-164). -/
def del (st : RedisState) (key : String) : Bool × RedisState :=
  if !st.connected || !st.hasClient then (false, st)
  else (true, redisDel st key)

/-- `RedisClient.exists` (part_000 lines 167-176); `exists` is a Lean
keyword, hence the name. -/
def existsKey (st : RedisState) (key : String) : Bool :=
  if !st.connected || !st.hasClient then false else (redisGet st key).isSome

/-- `RedisClient.mget` (part_000 lines 179-188). -/
def mget (st : RedisState) (keys : List String) : List (Option JVal) :=
  if !st.connected || !st.hasClient || keys.isEmpty then []
  else keys.map (redisGet st)

/-- `RedisClient.mset` (part_000 lines 191-207): a pipeline of SETEX
commands. -/
def mset (st : RedisState) (keyValuePairs : List (String × JVal)) (expireInSeconds : Nat) :
    Bool × RedisState :=
  if !st.connected || !st.hasClient then (false, st)
  else (true, keyValuePairs.foldl (fun s kv => redisSetEx s kv.1 expireInSeconds kv.2) st)

/-- `setSession` (part_000 lines 239-250); the token string is stored
verbatim. -/
def setSession (st : RedisState) (userId : String) (token : String) (ttlSeconds : Nat) :
    Bool × RedisState :=
  if !st.connected || !st.hasClient then (false, st)
  else (true, redisSetEx st ("session:" ++ userId) ttlSeconds (.jstr token))

/-- `getSession` (part_000 lines 252-262). -/
def getSession (st : RedisState) (userId : String) : Option JVal :=
  if !st.connected || !st.hasClient then none
  else redisGet st ("session:" ++ userId)

/-- `deleteSession` (part_000 lines 264-275). -/
def deleteSession (st : RedisState) (userId : String) : Bool × RedisState :=
  if !st.connected || !st.hasClient then (false, st)
  else (true, redisDel st ("session:" ++ userId))

/-- `setHealthData` (part_000 lines 278-294): the payload is spread into
a new object together with `cachedAt` and `expiresAt` timestamps, then
stored under `healthData:<userId>`. -/
def setHealthData (st : RedisState) (userId : String)
    (healthData : List (String × JVal)) (ttlSeconds : Nat) : Bool × RedisState :=
  if !st.connected || !st.hasClient then (false, st)
  else
    let dataWithTimestamp :=
      objSet (objSet healthData "cachedAt" (.jstr (isoString st.now)))
        "expiresAt" (.jstr (isoString (st.now + ttlSeconds)))
    (true, redisSetEx st ("healthData:" ++ userId) ttlSeconds (.jobj dataWithTimestamp))

/-- `getHealthData` (part_000 lines 296-312): returns the parsed stored
object in full. -/
def getHealthData (st : RedisState) (userId : String) : Option JVal :=
  if !st.connected || !st.hasClient then none
  else redisGet st ("healthData:" ++ userId)

/-- `setCaloricResult` (part_000 lines 315-349): compute the bucketed
key, read any existing entry to continue its hit count, then overwrite
with the new value and the incremented count. -/
def setCaloricResult (st : RedisState) (bmi : ℚ) (diseaseTypes : DiseaseArg)
    (calorieData : JVal) (ttlSeconds : Nat) : Bool × RedisState :=
  if !st.connected || !st.hasClient then (false, st)
  else
    let cacheKey := setCalorieKey bmi diseaseTypes
    let hitCount : ℚ :=
      match redisGet st cacheKey with
      | some (.jobj fields) =>
        (match objGet fields "hitCount" with
         | some (.jnum n) => n
         | _ => 0) + 1
      | some _ => 1
      | none => 1
    let resultData : JVal := .jobj
      [("bmiRange", .jnum ((bmiBucketIdx bmi : ℚ) * (5 / 2))),
       ("diseases", diseasesField diseaseTypes),
       ("result", calorieData),
       ("cachedAt", .jstr (isoString st.now)),
       ("hitCount", .jnum hitCount)]
    (true, redisSetEx st cacheKey ttlSeconds resultData)

/-- `getCaloricResult` (part_000 lines 351-375): recompute the key and
return the `result` field of the stored entry; the function performs no
write, which is why it returns no state. -/
def getCaloricResult (st : RedisState) (bmi : ℚ) (diseaseTypes : DiseaseArg) : Option JVal :=
  if !st.connected || !st.hasClient then none
  else
    match redisGet st (getCalorieKey bmi diseaseTypes) with
    | some (.jobj fields) => objGet fields "result"
    | some _ => none
    | none => none

end RedisClient

/-- The `hitCount` field of the entry currently stored under `key`. -/
def storedHitCount (st : RedisState) (key : String) : Option ℚ :=
  match redisGet st key with
  | some (.jobj fields) =>
    match objGet fields "hitCount" with
    | some (.jnum n) => some n
    | _ => none
  | _ => none

/-! ## Cache middleware (backend/middleware/cache.js) -/

/-- The hard-coded key list of `invalidateCache`
(cache.js lines 89-97). -/
def keysToDelete (userId : String) : List String :=
  ["cache:" ++ userId ++ ":/api/health/metrics",
   "cache:" ++ userId ++ ":/api/health/diseases",
   "cache:" ++ userId ++ ":/api/health/medications",
   "cache:" ++ userId ++ ":/api/health/summary",
   "cache:" ++ userId ++ ":/api/meals/daily",
   "cache:" ++ userId ++ ":/api/meals/weekly",
   "cache:" ++ userId ++ ":/api/ai/recommendations"]

/-- The per-pattern deletion step of `invalidateAfterResponse`
(cache.js lines 84-107): build the filter string from the pattern and
delete the hard-coded keys that contain it. -/
def invalidatePattern (st : RedisState) (userId pattern : String) : RedisState :=
  let fullPattern := jsReplaceFirst pattern ":userId" userId
  let filterStr := jsReplaceFirst (jsReplaceFirst fullPattern "cache:" "") ":userId:" userId
  (keysToDelete userId).foldl
    (fun s key => if jsIncludes key filterStr then (RedisClient.del s key).2 else s) st

/-- `invalidateAfterResponse` (cache.js lines 81-112): on a 2xx status,
run the deletion step for every pattern. -/
def invalidateAfterResponse (st : RedisState) (statusCode : Nat) (userId : String)
    (patterns : List String) : RedisState :=
  if 200 ≤ statusCode ∧ statusCode < 300 then
    patterns.foldl (fun s p => invalidatePattern s userId p) st
  else st

/-- The four keys the `health` domain actually deletes. -/
def healthInvalidatedKeys (userId : String) : List String :=
  ["cache:" ++ userId ++ ":/api/health/metrics",
   "cache:" ++ userId ++ ":/api/health/diseases",
   "cache:" ++ userId ++ ":/api/health/medications",
   "cache:" ++ userId ++ ":/api/health/summary"]

/-- `healthCacheKey` (cache.js lines 141-146): the key shape under which
the `cache(ttl, healthCacheKey(type))` route middleware actually stores
responses.  Note it is not in `keysToDelete`. -/
def healthCacheKey (dataType userId : String) : String :=
  "cache:health:" ++ userId ++ ":" ++ dataType

/-! ## Concrete states for witnesses and counterexamples -/

/-- A connected client over an empty keyspace at time 0. -/
def stOn : RedisState := RedisState.mk true true (fun _ => none) 0

/-- A disconnected client. -/
def stOff : RedisState := RedisState.mk false true (fun _ => none) 0

/-- A connected client whose every key holds an entry with hit count 1
expiring at time 100. -/
def stHit : RedisState :=
  RedisState.mk true true (fun _ => some (.jobj [("hitCount", .jnum 1)], 100)) 0

/-- A connected client holding only the profile-cache entry of user u1. -/
def stC6 : RedisState :=
  RedisState.mk true true
    (fun k => if k = "healthData:u1" then some (.jobj [], 50) else none) 0

/-! ## Support lemmas -/

theorem pbkdf2Sync_length (p s : List Nat) (it n : Nat) : (pbkdf2Sync p s it n).length = n := by
  simp [pbkdf2Sync]

theorem ratFloor_eq_floor (q : ℚ) : (Rat.floor q : ℤ) = ⌊q⌋ := by
  rw [Rat.floor_def]
  exact Rat.floor_def' q

theorem bmiBucketIdx_eq_floor (bmi : ℚ) : bmiBucketIdx bmi = ⌊bmi / (5/2 : ℚ)⌋ := by
  unfold bmiBucketIdx
  rw [ratFloor_eq_floor]
  congr 1
  rw [Rat.divInt_eq_div]
  have hden : ((bmi.den : ℚ)) ≠ 0 := by
    exact_mod_cast (Nat.cast_ne_zero (R := ℚ)).2 bmi.den_nz
  have hx : bmi * (bmi.den : ℚ) = (bmi.num : ℚ) := by
    have h2 := div_mul_cancel₀ (bmi.num : ℚ) hden
    rwa [Rat.num_div_den] at h2
  push_cast
  rw [div_eq_div_iff (by positivity) (by norm_num)]
  linear_combination (-5 : ℚ) * hx

theorem bucketVal_eq_iff (b1 b2 : ℚ) :
    (⌊b1 / (5/2 : ℚ)⌋ : ℚ) * (5/2) = (⌊b2 / (5/2 : ℚ)⌋ : ℚ) * (5/2) ↔
      bmiBucketIdx b1 = bmiBucketIdx b2 := by
  rw [bmiBucketIdx_eq_floor, bmiBucketIdx_eq_floor]
  constructor
  · intro h
    exact_mod_cast mul_right_cancel₀ (show (5/2 : ℚ) ≠ 0 by norm_num) h
  · intro h
    rw [h]

theorem b64Val_b64Chr : ∀ v, v < 64 → b64Val (b64Chr v) = some v := by decide

theorem b64Val_pad : b64Val '=' = none := by decide

theorem fromBase64_toBase64 : ∀ (l : List Nat), (∀ b ∈ l, b < 256) →
    fromBase64 (toBase64 l) = l := by
  intro l
  induction l using b64EncodeList.induct with
  | case1 => intro _; rfl
  | case2 b1 =>
    intro h
    have hb1 : b1 < 256 := h _ (by simp)
    show b64DecodeGroups ((b64EncodeList [b1]).filterMap b64Val) = [b1]
    simp only [b64EncodeList, List.filterMap_cons,
      b64Val_b64Chr _ (show b1 / 4 < 64 by omega),
      b64Val_b64Chr _ (show b1 % 4 * 16 < 64 by omega), b64Val_pad,
      List.filterMap_nil]
    simp only [b64DecodeGroups]
    simp only [List.cons.injEq]
    exact ⟨by omega, trivial⟩
  | case3 b1 b2 =>
    intro h
    have hb1 : b1 < 256 := h _ (by simp)
    have hb2 : b2 < 256 := h _ (by simp)
    show b64DecodeGroups ((b64EncodeList [b1, b2]).filterMap b64Val) = [b1, b2]
    simp only [b64EncodeList, List.filterMap_cons,
      b64Val_b64Chr _ (show b1 / 4 < 64 by omega),
      b64Val_b64Chr _ (show b1 % 4 * 16 + b2 / 16 < 64 by omega),
      b64Val_b64Chr _ (show b2 % 16 * 4 < 64 by omega), b64Val_pad,
      List.filterMap_nil]
    simp only [b64DecodeGroups]
    simp only [List.cons.injEq]
    exact ⟨by omega, by omega, trivial⟩
  | case4 b1 b2 b3 rest ih =>
    intro h
    have hb1 : b1 < 256 := h _ (by simp)
    have hb2 : b2 < 256 := h _ (by simp)
    have hb3 : b3 < 256 := h _ (by simp)
    have hrest : ∀ b ∈ rest, b < 256 := fun b hb => h b (by simp [hb])
    show b64DecodeGroups ((b64EncodeList (b1 :: b2 :: b3 :: rest)).filterMap b64Val)
      = b1 :: b2 :: b3 :: rest
    simp only [b64EncodeList, List.filterMap_cons,
      b64Val_b64Chr _ (show b1 / 4 < 64 by omega),
      b64Val_b64Chr _ (show b1 % 4 * 16 + b2 / 16 < 64 by omega),
      b64Val_b64Chr _ (show b2 % 16 * 4 + b3 / 64 < 64 by omega),
      b64Val_b64Chr _ (show b3 % 64 < 64 by omega)]
    simp only [b64DecodeGroups]
    have htail : b64DecodeGroups ((b64EncodeList rest).filterMap b64Val) = rest := ih hrest
    rw [htail]
    simp only [List.cons.injEq]
    exact ⟨by omega, by omega, by omega, trivial⟩

theorem keystream_length (key iv : List Nat) (n : Nat) : (keystream key iv n).length = n := by
  simp [keystream]

theorem keystream_lt (key iv : List Nat) (n : Nat) : ∀ b ∈ keystream key iv n, b < 256 := by
  intro b hb
  simp only [keystream, List.mem_map] at hb
  obtain ⟨i, _, rfl⟩ := hb
  exact Nat.mod_lt _ (by omega)

theorem zipWith_encByte_lt (l ks : List Nat) : ∀ b ∈ List.zipWith encByte l ks, b < 256 := by
  induction l generalizing ks with
  | nil => simp
  | cons a t ih =>
    cases ks with
    | nil => simp
    | cons k kt =>
      intro b hb
      rcases List.mem_cons.1 hb with h | h
      · subst h; exact Nat.mod_lt _ (by omega)
      · exact ih kt b h

theorem zip_dec_enc (m : List Nat) : ∀ (ks : List Nat), ks.length = m.length →
    (∀ b ∈ m, b < 256) → (∀ b ∈ ks, b < 256) →
    List.zipWith decByte (List.zipWith encByte m ks) ks = m := by
  induction m with
  | nil => intro ks _ _ _; simp
  | cons a t ih =>
    intro ks hlen hm hk
    cases ks with
    | nil => simp at hlen
    | cons k kt =>
      simp only [List.zipWith, List.cons.injEq]
      refine ⟨?_, ih kt (by simpa using hlen) (fun b hb => hm b (List.mem_cons_of_mem _ hb))
        (fun b hb => hk b (List.mem_cons_of_mem _ hb))⟩
      have ha : a < 256 := hm a (List.mem_cons_self _ _)
      have hkk : k < 256 := hk k (List.mem_cons_self _ _)
      simp only [encByte, decByte]
      omega

theorem pkcs7Pad_length_mod (m : List Nat) : (pkcs7Pad m).length % 16 = 0 := by
  simp only [pkcs7Pad, List.length_append, List.length_replicate]
  omega

theorem pkcs7Pad_lt (m : List Nat) (hm : ∀ b ∈ m, b < 256) : ∀ b ∈ pkcs7Pad m, b < 256 := by
  intro b hb
  rcases List.mem_append.1 hb with h | h
  · exact hm b h
  · have := List.eq_of_mem_replicate h; omega

theorem pkcs7Unpad_pad (m : List Nat) : pkcs7Unpad (pkcs7Pad m) = some m := by
  have hq1 : 1 ≤ 16 - m.length % 16 := by omega
  have hlenp : (pkcs7Pad m).length = m.length + (16 - m.length % 16) := by
    simp [pkcs7Pad]
  have hlast : (pkcs7Pad m).getLast? = some (16 - m.length % 16) := by
    rw [pkcs7Pad, List.getLast?_append_of_ne_nil]
    · simp [List.getLast?_replicate]
      omega
    · simp
      omega
  rw [pkcs7Unpad, hlast]
  dsimp only
  rw [if_pos]
  · rw [hlenp]
    have : m.length + (16 - m.length % 16) - (16 - m.length % 16) = m.length := by omega
    rw [this, pkcs7Pad, List.take_left]
  · refine ⟨hq1, by omega, by rw [hlenp]; omega, ?_⟩
    rw [hlenp]
    have : m.length + (16 - m.length % 16) - (16 - m.length % 16) = m.length := by omega
    rw [this, pkcs7Pad, List.drop_left]
    simp [List.all_eq_true]

/-! ## C1: credential round trip -/

/-- C1: for every password (as UTF-8 bytes), and for every fresh 32-byte
salt and 16-byte IV the secure random source can produce,
`comparePassword(p, hashPassword(p))` returns true: the envelope built
by `hashPassword` decodes back into the same salt, IV and ciphertext,
the key re-derived from the candidate and the stored salt matches,
decryption inverts encryption, the padding check passes, and the
decrypted plaintext equals the candidate. -/
theorem c1_compare_roundtrip (p salt iv : List Nat)
    (hp : ∀ b ∈ p, b < 256) (hs : ∀ b ∈ salt, b < 256) (hi : ∀ b ∈ iv, b < 256)
    (hsl : salt.length = 32) (hil : iv.length = 16) :
    (hashPassword p salt iv).map (comparePassword p) = .ok true := by
  have hkl : (deriveKey p salt).length = 32 := pbkdf2Sync_length _ _ _ _
  have henc : aesCbcEncrypt (deriveKey p salt) iv p =
      .ok (List.zipWith encByte (pkcs7Pad p)
        (keystream (deriveKey p salt) iv (pkcs7Pad p).length)) := by
    simp [aesCbcEncrypt, hkl, hil]
  generalize hCT : List.zipWith encByte (pkcs7Pad p)
    (keystream (deriveKey p salt) iv (pkcs7Pad p).length) = CT at henc
  have hctlen : CT.length = (pkcs7Pad p).length := by
    rw [← hCT]
    simp [List.length_zipWith, keystream_length]
  have hctlt : ∀ b ∈ CT, b < 256 := by
    rw [← hCT]
    exact zipWith_encByte_lt _ _
  have hall : ∀ b ∈ salt ++ iv ++ CT, b < 256 := by
    intro b hb
    rcases List.mem_append.1 hb with h | h
    · rcases List.mem_append.1 h with h2 | h2
      · exact hs b h2
      · exact hi b h2
    · exact hctlt b h
  have hdec : fromBase64 (toBase64 (salt ++ iv ++ CT)) = salt ++ iv ++ CT :=
    fromBase64_toBase64 _ hall
  have hsalt_take : List.take saltLength (salt ++ iv ++ CT) = salt := by
    rw [List.append_assoc]
    exact List.take_left' hsl
  have hdrop : List.drop saltLength (salt ++ iv ++ CT) = iv ++ CT := by
    rw [List.append_assoc]
    exact List.drop_left' hsl
  have hiv_take : List.take ivLength (iv ++ CT) = iv := List.take_left' hil
  have hct_drop : List.drop (saltLength + ivLength) (salt ++ iv ++ CT) = CT :=
    List.drop_left' (by simp [hsl, hil, saltLength, ivLength])
  have hdecr : aesCbcDecrypt (deriveKey p salt) iv CT = .ok p := by
    rw [← hCT]
    simp only [aesCbcDecrypt]
    rw [if_neg (by simp [hkl]), if_neg (by simp [hil]),
      if_neg (by simp [List.length_zipWith, keystream_length, pkcs7Pad_length_mod])]
    rw [show (List.zipWith encByte (pkcs7Pad p)
        (keystream (deriveKey p salt) iv (pkcs7Pad p).length)).length
        = (pkcs7Pad p).length by simp [List.length_zipWith, keystream_length]]
    rw [zip_dec_enc _ _ (keystream_length _ _ _) (pkcs7Pad_lt _ hp)
      (keystream_lt _ _ _), pkcs7Unpad_pad]
  have hcmp : comparePasswordExc p (toBase64 (salt ++ iv ++ CT)) = .ok true := by
    simp only [comparePasswordExc]
    rw [hdec, hsalt_take, hdrop, hiv_take, hct_drop, hdecr]
    simp
  have henv : hashPassword p salt iv = .ok (toBase64 (salt ++ iv ++ CT)) := by
    simp only [hashPassword, henc]
  rw [henv]
  simp only [Except.map, comparePassword]
  rw [hcmp]


/-- C1 witness at a concrete password, salt and IV. -/
theorem c1_compare_roundtrip_witness :
    (hashPassword [104, 105] (List.replicate 32 3) (List.replicate 16 5)).map
      (comparePassword [104, 105]) = .ok true :=
  c1_compare_roundtrip _ _ _ (by decide) (by decide) (by decide) (by decide) (by decide)

/-! ## C8: key-derivation error behaviour -/

/-- C8 counterexample: the claim says a malformed (non-32-byte) salt
makes `deriveKey` fail with an `InvalidSaltLength` error.  The code has
no such check: `deriveKey` is exactly `pbkdf2Sync`, which accepts a salt
of any length, so with an empty salt the call succeeds and still returns
a 32-byte key.  (The model is total in the salt for this reason; no
error channel exists to fail through.) -/
theorem c8_counterexample_short_salt_succeeds : (deriveKey [112] []).length = 32 := by decide

/-- C8 amended: `deriveKey(password, salt)` has no error conditions at
all; for every salt, of any length including malformed ones, it
deterministically returns a 32-byte key. -/
theorem c8_derive_key_total_amended (password salt : List Nat) :
    (deriveKey password salt).length = 32 :=
  pbkdf2Sync_length password salt iterations keyLength

/-! ## C5: password strength scoring -/

/-- C5: for every password, the score is the count of satisfied criteria
among length, uppercase, lowercase, digit, symbol, reduced by one when a
deny-listed substring occurs in the lowercased password (the source
clamps at 0 via `Math.max`, which on naturals is truncated subtraction);
strength is weak iff score < 3, medium iff score = 3, strong iff
score ≥ 4; isValid iff score ≥ 3; and the two example passwords score
2/weak/invalid and 5/strong/valid. -/
theorem c5_strength_scoring (p : String) :
    ((validatePasswordStrength p).score =
      ((if (validatePasswordStrength p).minLength then 1 else 0) +
       (if (validatePasswordStrength p).hasUppercase then 1 else 0) +
       (if (validatePasswordStrength p).hasLowercase then 1 else 0) +
       (if (validatePasswordStrength p).hasNumbers then 1 else 0) +
       (if (validatePasswordStrength p).hasSymbols then 1 else 0)) -
      (if (validatePasswordStrength p).noCommonPatterns then 0 else 1)) ∧
    ((validatePasswordStrength p).minLength = decide (8 ≤ p.length)) ∧
    ((validatePasswordStrength p).hasUppercase = p.data.any (fun c => 'A' ≤ c && c ≤ 'Z')) ∧
    ((validatePasswordStrength p).hasLowercase = p.data.any (fun c => 'a' ≤ c && c ≤ 'z')) ∧
    ((validatePasswordStrength p).hasNumbers = p.data.any (fun c => '0' ≤ c && c ≤ '9')) ∧
    ((validatePasswordStrength p).hasSymbols = p.data.any (fun c => symbolChars.contains c)) ∧
    ((validatePasswordStrength p).noCommonPatterns = !hasCommonPattern p) ∧
    ((validatePasswordStrength p).strength = "weak" ↔ (validatePasswordStrength p).score < 3) ∧
    ((validatePasswordStrength p).strength = "medium" ↔ (validatePasswordStrength p).score = 3) ∧
    ((validatePasswordStrength p).strength = "strong" ↔ 4 ≤ (validatePasswordStrength p).score) ∧
    ((validatePasswordStrength p).isValid = true ↔ 3 ≤ (validatePasswordStrength p).score) ∧
    (validatePasswordStrength "abcdefgh").score = 2 ∧
    (validatePasswordStrength "abcdefgh").strength = "weak" ∧
    (validatePasswordStrength "abcdefgh").isValid = false ∧
    (validatePasswordStrength "Abcdef1!").score = 5 ∧
    (validatePasswordStrength "Abcdef1!").strength = "strong" ∧
    (validatePasswordStrength "Abcdef1!").isValid = true := by
  have hstr : (validatePasswordStrength p).strength =
      (if 4 ≤ (validatePasswordStrength p).score then "strong"
       else if 3 ≤ (validatePasswordStrength p).score then "medium" else "weak") := rfl
  have hval : (validatePasswordStrength p).isValid =
      decide (3 ≤ (validatePasswordStrength p).score) := rfl
  refine ⟨?_, rfl, rfl, rfl, rfl, rfl, rfl, ?_, ?_, ?_, ?_,
    by decide, by decide, by decide, by decide, by decide, by decide⟩
  · by_cases hc : hasCommonPattern p = true <;>
      simp only [validatePasswordStrength, hc, Bool.not_true, Bool.not_false,
        if_true, if_false, Nat.zero_max, Bool.false_eq_true, ite_true, ite_false] <;>
      omega
  · generalize hG : (validatePasswordStrength p).score = s at hstr ⊢
    rw [hstr]
    split_ifs with h4 h3 <;> simp <;> omega
  · generalize hG : (validatePasswordStrength p).score = s at hstr ⊢
    rw [hstr]
    split_ifs with h4 h3 <;> simp <;> omega
  · generalize hG : (validatePasswordStrength p).score = s at hstr ⊢
    rw [hstr]
    split_ifs with h4 h3 <;> simp <;> omega
  · generalize hG : (validatePasswordStrength p).score = s at hval ⊢
    rw [hval]
    simp

/-! ## C10: memoized-key agreement -/

/-- C10 counterexample: the claim says the condition segment `none` is
produced only when `conditions` is a non-array falsy value.  But the
array `["none"]` is neither falsy nor a non-array, and
`["none"].sort().join(",")` is also the string `none`, so the array
input produces the identical key. -/
theorem c10_counterexample_none_from_array :
    setCalorieKey (mkRat 25 1) (.arr ["none"]) = setCalorieKey (mkRat 25 1) .nullv := by decide

/-- C10 amended: `setCaloricResult` and `getCaloricResult` compute
character-for-character identical keys for every input; an empty
condition array yields an empty condition segment; a non-array falsy
value yields the segment `none`.  The converse of the last point fails
(see the counterexample): array or truthy-string inputs whose rendering
is `none` collide with it. -/
theorem c10_key_agreement_amended :
    (∀ (bmi : ℚ) (dt : DiseaseArg), setCalorieKey bmi dt = getCalorieKey bmi dt) ∧
    (∀ bmi : ℚ, setCalorieKey bmi (.arr []) =
      "calorie:" ++ bucketStr (bmiBucketIdx bmi) ++ ":") ∧
    (∀ bmi : ℚ, setCalorieKey bmi .nullv =
      "calorie:" ++ bucketStr (bmiBucketIdx bmi) ++ ":" ++ "none") := by
  refine ⟨fun bmi dt => rfl, fun bmi => ?_, fun bmi => rfl⟩
  simp [setCalorieKey, diseaseSegment, sortStr, joinComma]

/-! ## C2: comparePassword never propagates an exception -/

/-- C2: whenever the body of `comparePassword` (decode, slice,
re-derive, decrypt) raises — invalid envelopes, too-short envelopes,
padding failures — the surrounding catch returns the boolean `false`
instead of propagating the error. -/
theorem c2_compare_absorbs_errors (candidate : List Nat) (env : String) (e : String)
    (h : comparePasswordExc candidate env = .error e) :
    comparePassword candidate env = false := by
  simp [comparePassword, h]

/-- C2 witness: the envelope `AA` decodes to a single byte, far too
short to contain a salt and IV; the 0-byte IV slice makes decipher
construction fail, and the result is `false`. -/
theorem c2_compare_absorbs_errors_witness : comparePassword [97] "AA" = false :=
  c2_compare_absorbs_errors [97] "AA" "Invalid initialization vector" (by rfl)

/-! ## C3: fail-open -/

/-- C3: with the backend disconnected (flag false or client null), every
RedisClient operation returns its empty value without effect: `get`
null, `set` false, `del` false, `exists` false, `mget` the empty list,
`mset` false, and the session, health-profile and calorie wrappers
likewise return null or false, leaving the state unchanged. -/
theorem c3_fail_open (st : RedisState) (key tok userId : String) (v cal : JVal)
    (ttl : Nat) (keys : List String) (pairs : List (String × JVal))
    (healthData : List (String × JVal)) (bmi : ℚ) (dt : DiseaseArg)
    (h : st.connected = false ∨ st.hasClient = false) :
    RedisClient.get st key = none ∧
    RedisClient.set st key v ttl = (false, st) ∧
    RedisClient.del st key = (false, st) ∧
    RedisClient.existsKey st key = false ∧
    RedisClient.mget st keys = [] ∧
    RedisClient.mset st pairs ttl = (false, st) ∧
    RedisClient.getSession st userId = none ∧
    RedisClient.setSession st userId tok ttl = (false, st) ∧
    RedisClient.deleteSession st userId = (false, st) ∧
    RedisClient.getHealthData st userId = none ∧
    RedisClient.setHealthData st userId healthData ttl = (false, st) ∧
    RedisClient.getCaloricResult st bmi dt = none ∧
    RedisClient.setCaloricResult st bmi dt cal ttl = (false, st) := by
  rcases h with h | h <;>
    simp [RedisClient.get, RedisClient.set, RedisClient.del, RedisClient.existsKey,
      RedisClient.mget, RedisClient.mset, RedisClient.getSession, RedisClient.setSession,
      RedisClient.deleteSession, RedisClient.getHealthData, RedisClient.setHealthData,
      RedisClient.getCaloricResult, RedisClient.setCaloricResult, h]

/-- C3 witness at a concrete disconnected state. -/
theorem c3_fail_open_witness :
    RedisClient.get stOff "k" = none ∧
    RedisClient.set stOff "k" JVal.jnull 60 = (false, stOff) ∧
    RedisClient.del stOff "k" = (false, stOff) ∧
    RedisClient.existsKey stOff "k" = false ∧
    RedisClient.mget stOff ["k"] = [] ∧
    RedisClient.mset stOff [] 60 = (false, stOff) ∧
    RedisClient.getSession stOff "u" = none ∧
    RedisClient.setSession stOff "u" "t" 60 = (false, stOff) ∧
    RedisClient.deleteSession stOff "u" = (false, stOff) ∧
    RedisClient.getHealthData stOff "u" = none ∧
    RedisClient.setHealthData stOff "u" [] 60 = (false, stOff) ∧
    RedisClient.getCaloricResult stOff (mkRat 25 1) (.arr []) = none ∧
    RedisClient.setCaloricResult stOff (mkRat 25 1) (.arr []) JVal.jnull 60 = (false, stOff) :=
  c3_fail_open stOff "k" "t" "u" JVal.jnull JVal.jnull 60 ["k"] [] []
    (mkRat 25 1) (.arr []) (Or.inl rfl)

theorem redisGet_setEx_self (st : RedisState) (key : String) (ttl : Nat) (v : JVal)
    (h : 0 < ttl) : redisGet (redisSetEx st key ttl v) key = some v := by
  simp [redisGet, redisSetEx, Nat.lt_add_of_pos_right h]

/-! ## C9: profile-cache round trip -/

/-- C9 amended: `getHealthData(id)` before any put returns null, and
after `setHealthData(id, payload, ttl)` succeeds on a connected backend,
a `getHealthData(id)` before the TTL elapses returns the payload
augmented with the `cachedAt` and `expiresAt` timestamp fields appended
by the put (every original field preserved, provided the payload itself
carries neither key). -/
theorem c9_profile_roundtrip_amended :
    (∀ (st : RedisState) (u : String), (∀ k, st.store k = none) →
      RedisClient.getHealthData st u = none) ∧
    (∀ (st : RedisState) (u : String) (payload : List (String × JVal)) (ttl : Nat),
      st.connected = true → st.hasClient = true → 0 < ttl →
      (∀ f ∈ payload, f.1 ≠ "cachedAt" ∧ f.1 ≠ "expiresAt") →
      (RedisClient.setHealthData st u payload ttl).1 = true ∧
      RedisClient.getHealthData (RedisClient.setHealthData st u payload ttl).2 u =
        some (.jobj (payload ++
          [("cachedAt", .jstr (isoString st.now)),
           ("expiresAt", .jstr (isoString (st.now + ttl)))]))) := by
  constructor
  · intro st u hempty
    simp [RedisClient.getHealthData, redisGet, hempty]
  · intro st u payload ttl hc hcl httl hkeys
    have hcond : (!st.connected || !st.hasClient) = false := by simp [hc, hcl]
    have hmem1 : "cachedAt" ∉ payload.map (fun f => f.1) := by
      intro hmem
      obtain ⟨f, hf, hEq⟩ := List.mem_map.1 hmem
      exact (hkeys f hf).1 hEq
    have hc1 : ((payload.map (fun f => f.1)).contains "cachedAt") = false := by
      simpa using hmem1
    have hmem2 : "expiresAt" ∉
        (payload ++ [("cachedAt", JVal.jstr (isoString st.now))]).map (fun f => f.1) := by
      simp only [List.map_append, List.mem_append]
      rintro (hmem | hmem)
      · obtain ⟨f, hf, hEq⟩ := List.mem_map.1 hmem
        exact (hkeys f hf).2 hEq
      · simp at hmem
    have hc2 : (((payload ++ [("cachedAt", JVal.jstr (isoString st.now))]).map
        (fun f => f.1)).contains "expiresAt") = false := by
      simpa using hmem2
    have hobj1 : objSet payload "cachedAt" (.jstr (isoString st.now)) =
        payload ++ [("cachedAt", .jstr (isoString st.now))] := by
      rw [objSet, if_neg (by rw [hc1]; exact Bool.false_ne_true)]
    have hobj2 : objSet (payload ++ [("cachedAt", JVal.jstr (isoString st.now))])
        "expiresAt" (.jstr (isoString (st.now + ttl))) =
        payload ++ [("cachedAt", .jstr (isoString st.now)),
          ("expiresAt", .jstr (isoString (st.now + ttl)))] := by
      rw [objSet, if_neg (by rw [hc2]; exact Bool.false_ne_true)]
      simp
    refine ⟨by simp [RedisClient.setHealthData, hcond], ?_⟩
    simp only [RedisClient.setHealthData, hcond, Bool.false_eq_true, if_false, hobj1, hobj2]
    simp only [RedisClient.getHealthData, redisSetEx, Bool.false_eq_true]
    rw [if_neg (by simp [hc, hcl])]
    have := redisGet_setEx_self st ("healthData:" ++ u) ttl
      (.jobj (payload ++ [("cachedAt", .jstr (isoString st.now)),
        ("expiresAt", .jstr (isoString (st.now + ttl)))])) httl
    simpa [redisSetEx] using this

/-- C9 counterexample: after putting the empty payload, the value read
back is not the empty object but carries the two timestamp fields. -/
theorem c9_counterexample_payload_augmented :
    RedisClient.getHealthData (RedisClient.setHealthData stOn "u1" [] 1800).2 "u1" ≠
      some (JVal.jobj []) := by
  have h : RedisClient.getHealthData (RedisClient.setHealthData stOn "u1" [] 1800).2 "u1" =
      some (JVal.jobj [("cachedAt", JVal.jstr "0"), ("expiresAt", JVal.jstr "1800")]) := by
    rfl
  rw [h]
  intro hEq
  simp at hEq

/-- C9 witness at a concrete payload. -/
theorem c9_profile_roundtrip_amended_witness :
    RedisClient.getHealthData stOn "u1" = none ∧
    (RedisClient.setHealthData stOn "u1" [("weight", JVal.jnum 70)] 1800).1 = true ∧
    RedisClient.getHealthData
        (RedisClient.setHealthData stOn "u1" [("weight", JVal.jnum 70)] 1800).2 "u1" =
      some (.jobj ([("weight", JVal.jnum 70)] ++
        [("cachedAt", .jstr (isoString stOn.now)),
         ("expiresAt", .jstr (isoString (stOn.now + 1800)))])) := by
  refine ⟨c9_profile_roundtrip_amended.1 stOn "u1" (fun _ => rfl), ?_, ?_⟩
  · exact (c9_profile_roundtrip_amended.2 stOn "u1" [("weight", JVal.jnum 70)] 1800
      rfl rfl (by decide) (by decide)).1
  · exact (c9_profile_roundtrip_amended.2 stOn "u1" [("weight", JVal.jnum 70)] 1800
      rfl rfl (by decide) (by decide)).2

/-! ## C4: bucketing collision -/

/-- C4: if `floor(b1/2.5)*2.5 = floor(b2/2.5)*2.5` (the hypothesis `hb`,
stated with the mathematical floor, which `bmiBucketIdx_eq_floor` proves
is what the code computes), then for identical condition lists both
calls compute the same `calorie:<bucket>:<joined>` key, and a
`getCaloricResult` for `b2` issued right after a `setCaloricResult` for
`b1` on a connected backend returns the stored value — a cache hit,
independent of any user identity, which does not enter the key. -/
theorem c4_bucket_collision_hit (st : RedisState) (b1 b2 : ℚ) (conds : List String)
    (v : JVal) (ttl : Nat) (hc : st.connected = true) (hcl : st.hasClient = true)
    (httl : 0 < ttl)
    (hb : (⌊b1 / (5/2 : ℚ)⌋ : ℚ) * (5/2) = (⌊b2 / (5/2 : ℚ)⌋ : ℚ) * (5/2)) :
    (RedisClient.setCaloricResult st b1 (.arr conds) v ttl).1 = true ∧
    RedisClient.getCaloricResult (RedisClient.setCaloricResult st b1 (.arr conds) v ttl).2
      b2 (.arr conds) = some v := by
  have hidx : bmiBucketIdx b1 = bmiBucketIdx b2 := (bucketVal_eq_iff b1 b2).1 hb
  have hkey : getCalorieKey b2 (.arr conds) = setCalorieKey b1 (.arr conds) := by
    simp [getCalorieKey, setCalorieKey, hidx]
  have hcond : (!st.connected || !st.hasClient) = false := by simp [hc, hcl]
  refine ⟨by simp [RedisClient.setCaloricResult, hcond], ?_⟩
  simp only [RedisClient.setCaloricResult, hcond, Bool.false_eq_true, if_false]
  simp only [RedisClient.getCaloricResult, redisSetEx, Bool.false_eq_true]
  rw [if_neg (by simp [hc, hcl])]
  rw [hkey]
  have hget := redisGet_setEx_self st (setCalorieKey b1 (.arr conds)) ttl
    (.jobj [("bmiRange", .jnum ((bmiBucketIdx b1 : ℚ) * (5 / 2))),
       ("diseases", diseasesField (.arr conds)),
       ("result", v),
       ("cachedAt", .jstr (isoString st.now)),
       ("hitCount", .jnum
         (match redisGet st (setCalorieKey b1 (.arr conds)) with
          | some (.jobj fields) =>
            (match objGet fields "hitCount" with
             | some (.jnum n) => n
             | _ => 0) + 1
          | some _ => 1
          | none => 1))]) httl
  rw [show redisSetEx st (setCalorieKey b1 (.arr conds)) ttl _ =
    RedisState.mk st.connected st.hasClient _ st.now from rfl] at hget
  rw [hget]
  simp [objGet, List.find?]

/-- C4 witness at BMI 24.9 and 23.1, both bucketing to 22.5. -/
theorem c4_bucket_collision_hit_witness :
    (RedisClient.setCaloricResult stOn (mkRat 249 10) (.arr ["diabetes"])
      (JVal.jstr "r") 7200).1 = true ∧
    RedisClient.getCaloricResult
      (RedisClient.setCaloricResult stOn (mkRat 249 10) (.arr ["diabetes"])
        (JVal.jstr "r") 7200).2 (mkRat 231 10) (.arr ["diabetes"]) = some (JVal.jstr "r") :=
  c4_bucket_collision_hit stOn (mkRat 249 10) (mkRat 231 10) ["diabetes"]
    (JVal.jstr "r") 7200 rfl rfl (by decide)
    ((bucketVal_eq_iff (mkRat 249 10) (mkRat 231 10)).2 (by decide))

/-! ## C7: hit-count bookkeeping -/

/-- C7 amended: the `hitCount` of a stored entry is incremented by
`setCaloricResult` (the write), which reads any existing entry under the
same bucketed key and stores `hitCount + 1`; `getCaloricResult` performs
no write at all (its type returns no state), so reads leave the stored
count unchanged. -/
theorem c7_hitcount_increment_on_write (st : RedisState) (bmi : ℚ) (dt : DiseaseArg)
    (v : JVal) (ttl : Nat) (fields : List (String × JVal)) (n : ℚ)
    (hc : st.connected = true) (hcl : st.hasClient = true) (httl : 0 < ttl)
    (hstore : redisGet st (setCalorieKey bmi dt) = some (.jobj fields))
    (hn : objGet fields "hitCount" = some (.jnum n)) :
    storedHitCount (RedisClient.setCaloricResult st bmi dt v ttl).2 (setCalorieKey bmi dt) =
      some (n + 1) := by
  have hcond : (!st.connected || !st.hasClient) = false := by simp [hc, hcl]
  simp only [RedisClient.setCaloricResult, hcond, Bool.false_eq_true, if_false, hstore, hn]
  simp only [storedHitCount]
  have hget := redisGet_setEx_self st (setCalorieKey bmi dt) ttl
    (.jobj [("bmiRange", .jnum ((bmiBucketIdx bmi : ℚ) * (5 / 2))),
       ("diseases", diseasesField dt),
       ("result", v),
       ("cachedAt", .jstr (isoString st.now)),
       ("hitCount", .jnum (n + 1))]) httl
  rw [hget]
  simp [objGet, List.find?]

/-- C7 counterexample: the claim says a `getCaloricResult` that finds
the key present increments the stored `hitCount`.  After the initial
write stored the entry with hitCount 1, a read hits — and the stored
hitCount is still 1, because `getCaloricResult` only issues a GET; the
increment lives in `setCaloricResult`. -/
theorem c7_counterexample_read_does_not_increment :
    RedisClient.getCaloricResult
      (RedisClient.setCaloricResult stOn (mkRat 25 1) (.arr []) (.jstr "r") 7200).2
      (mkRat 25 1) (.arr []) = some (.jstr "r") ∧
    storedHitCount (RedisClient.setCaloricResult stOn (mkRat 25 1) (.arr [])
      (.jstr "r") 7200).2 (setCalorieKey (mkRat 25 1) (.arr [])) = some 1 := by
  constructor <;> rfl

/-- C7 witness: a write over an existing entry with hitCount 1 stores
hitCount 2. -/
theorem c7_hitcount_increment_on_write_witness :
    storedHitCount (RedisClient.setCaloricResult stHit (mkRat 25 1) (.arr [])
      (JVal.jstr "r") 7200).2 (setCalorieKey (mkRat 25 1) (.arr [])) = some (1 + 1) :=
  c7_hitcount_increment_on_write stHit (mkRat 25 1) (.arr []) (JVal.jstr "r") 7200
    [("hitCount", JVal.jnum 1)] 1 rfl rfl (by decide) (by rfl) (by rfl)

theorem hasSub_append_right (a b sub : List Char) (h : hasSub b sub = true) :
    hasSub (a ++ b) sub = true := by
  induction a with
  | nil => simpa using h
  | cons c t ih => simp [hasSub, ih]

theorem jsIncludes_append_right (a b sub : String) (h : jsIncludes b sub = true) :
    jsIncludes (a ++ b) sub = true := by
  simp only [jsIncludes, String.data_append]
  exact hasSub_append_right _ _ _ (by simpa [jsIncludes] using h)

theorem del_connected (s : RedisState) (key : String) (hc : s.connected = true)
    (hcl : s.hasClient = true) : RedisClient.del s key = (true, redisDel s key) := by
  simp [RedisClient.del, hc, hcl]

/-! ## C6: invalidation scope -/

/-- C6 amended: running the invalidation step for domain `health` on
behalf of identity U after a 2xx response deletes exactly the four
hard-coded generic request-cache keys
`cache:U:/api/health/{metrics,diseases,medications,summary}` (assuming
U itself does not smuggle the substring `health` into the meals or ai
keys, hypotheses h1-h3): every other key — in particular the
profile-cache entry `healthData:U`, the `cache:health:U:*` entries the
route middleware actually writes, and every key of any other identity —
is left untouched. -/
theorem c6_invalidation_scope_amended (st : RedisState) (u : String) (sc : Nat) (k : String)
    (hc : st.connected = true) (hcl : st.hasClient = true)
    (hsc : 200 ≤ sc ∧ sc < 300)
    (h1 : jsIncludes ("cache:" ++ u ++ ":/api/meals/daily") "health" = false)
    (h2 : jsIncludes ("cache:" ++ u ++ ":/api/meals/weekly") "health" = false)
    (h3 : jsIncludes ("cache:" ++ u ++ ":/api/ai/recommendations") "health" = false) :
    (invalidateAfterResponse st sc u ["health"]).store k =
      if k ∈ healthInvalidatedKeys u then none else st.store k := by
  have hfold : invalidateAfterResponse st sc u ["health"] =
      (keysToDelete u).foldl
        (fun s key => if jsIncludes key "health" then (RedisClient.del s key).2 else s) st := by
    rw [invalidateAfterResponse, if_pos hsc]
    rfl
  have hk1 : jsIncludes ("cache:" ++ u ++ ":/api/health/metrics") "health" = true :=
    jsIncludes_append_right _ _ _ rfl
  have hk2 : jsIncludes ("cache:" ++ u ++ ":/api/health/diseases") "health" = true :=
    jsIncludes_append_right _ _ _ rfl
  have hk3 : jsIncludes ("cache:" ++ u ++ ":/api/health/medications") "health" = true :=
    jsIncludes_append_right _ _ _ rfl
  have hk4 : jsIncludes ("cache:" ++ u ++ ":/api/health/summary") "health" = true :=
    jsIncludes_append_right _ _ _ rfl
  rw [hfold]
  simp only [keysToDelete, List.foldl, hk1, hk2, hk3, hk4, h1, h2, h3, if_true, if_false,
    Bool.false_eq_true]
  simp only [RedisClient.del, redisDel, Bool.not_true, Bool.or_self, Bool.false_eq_true,
    if_false, hc, hcl]
  simp only [healthInvalidatedKeys, List.mem_cons, List.not_mem_nil, or_false]
  split_ifs <;> first | rfl | (exfalso; simp_all)

/-- C6 counterexample: the claim says invalidating domain `health` for
u1 deletes the profile-cache entry (`healthData:u1`).  Starting from a
connected state holding exactly that entry, the invalidation step after
a 200 response leaves it in place: only `cache:u1:/api/...` keys are in
the hard-coded deletion list. -/
theorem c6_counterexample_profile_entry_survives :
    (invalidateAfterResponse stC6 200 "u1" ["health"]).store "healthData:u1" =
      some (JVal.jobj [], 50) := by rfl

/-- C6 witness: one of the four hard-coded keys is indeed deleted. -/
theorem c6_invalidation_scope_amended_witness :
    (invalidateAfterResponse stC6 200 "u1" ["health"]).store
      ("cache:" ++ "u1" ++ ":/api/health/metrics") = none :=
  Eq.trans
    (c6_invalidation_scope_amended stC6 "u1" 200 ("cache:" ++ "u1" ++ ":/api/health/metrics")
      rfl rfl ⟨by decide, by decide⟩ rfl rfl rfl)
    (by rfl)

end HealthGuard
